import Mathlib

/-!
Verification development for the Express Entry draws repository
(`Draws.py`, `Data/Draws.py`, `Data/automation.py`).

The Python source is shallowly embedded: pure string manipulation and the
multi-stage datetime parser (`ExpressEntryManager.parse_draw_datetime`)
become total Lean functions on `List Char`; the stateful synchronizer
(`ExpressEntryManager.update_data`) becomes an explicit state-passing
function on an optional persisted-file value, with the wall clock and the
success of file writes passed as parameters; Python exceptions that the
source catches are modelled by `Option`/`Except` results.
-/

namespace EE

/-! ### Basic string helpers (Python `str` operations, on `List Char`) -/

/-- Python `pat in hay` (substring containment). `"" in s` is `True`. -/
def occursIn (pat : List Char) : List Char → Bool
  | [] => pat.isEmpty
  | c :: t => pat.isPrefixOf (c :: t) || occursIn pat t

/-- Python `hay.count(pat)` for a nonempty pattern `p0 :: prest`:
number of non-overlapping occurrences, scanning left to right.
The scan consumes at least one character per step, so running it on
structural fuel initialized to the list length computes the full
traversal (the fuel-0 case is unreachable then); the fuel makes the
recursion structural and hence kernel-evaluable. -/
def countOccF (p0 : Char) (prest : List Char) : Nat → List Char → Nat
  | 0, _ => 0
  | _, [] => 0
  | fuel + 1, c :: t =>
    if (p0 :: prest).isPrefixOf (c :: t) then
      countOccF p0 prest fuel (t.drop prest.length) + 1
    else
      countOccF p0 prest fuel t

def countOcc (p0 : Char) (prest hay : List Char) : Nat :=
  countOccF p0 prest hay.length hay

/-- Python `hay.replace(pat, rep)` for a nonempty pattern `p0 :: prest`:
replace every non-overlapping occurrence, scanning left to right
(structural fuel as in `countOccF`). -/
def replGoF (p0 : Char) (prest rep : List Char) : Nat → List Char → List Char
  | 0, l => l
  | _, [] => []
  | fuel + 1, c :: t =>
    if (p0 :: prest).isPrefixOf (c :: t) then
      rep ++ replGoF p0 prest rep fuel (t.drop prest.length)
    else
      c :: replGoF p0 prest rep fuel t

/-- Python `hay.replace(pat, rep)`; an empty pattern is never used by the
source, and is modelled as the identity. -/
def pyReplace (pat rep hay : List Char) : List Char :=
  match pat with
  | [] => hay
  | p0 :: prest => replGoF p0 prest rep hay.length hay

/-- Python `s.strip()` (the source strings are ASCII, where `Char.isWhitespace`
agrees with Python's notion of whitespace). -/
def pyStrip (cs : List Char) : List Char :=
  ((cs.dropWhile Char.isWhitespace).reverse.dropWhile Char.isWhitespace).reverse

/-- Python `s.split()`: split on runs of whitespace, dropping empty pieces
(structural fuel as in `countOccF`). -/
def splitWsF : Nat → List Char → List (List Char)
  | 0, _ => []
  | _, [] => []
  | fuel + 1, c :: t =>
    if c.isWhitespace then splitWsF fuel t
    else (c :: t.takeWhile (fun x => !x.isWhitespace)) ::
      splitWsF fuel (t.dropWhile (fun x => !x.isWhitespace))

def splitWs (cs : List Char) : List (List Char) :=
  splitWsF cs.length cs

/-- Python `" ".join(parts)`. -/
def joinSp : List (List Char) → List Char
  | [] => []
  | [x] => x
  | x :: y :: t => x ++ ' ' :: joinSp (y :: t)

/-- Decimal value of an ASCII digit character. -/
def dv (c : Char) : Nat := c.toNat - 48

/-- Python `int(...)` on a string of ASCII digits. -/
def toNatL (cs : List Char) : Nat := cs.foldl (fun a c => 10 * a + dv c) 0

/-! ### `datetime.strptime` for the fixed format strings of the source

`parse_draw_datetime` only ever calls `datetime.strptime` with the format
directives `%B %d %m %Y %H %M %S %p` and the literals `,`, `:`, `-`, `at`,
`UTC` and spaces.  Python compiles the format to a regex with `IGNORECASE`;
a space in the format matches a nonempty whitespace run (`\s+`); the numeric
directives are ordered regex alternations (`%d` is `3[01]|[12]\d|0[1-9]|[1-9]`,
`%H` is `2[0-3]|[0-1]\d|\d`, `%M` is `[0-5]\d|\d`, `%S` is `6[0-1]|[0-5]\d|\d`,
`%m` is `1[0-2]|0[1-9]|[1-9]`, `%Y` is `\d{4}`), tried left to right with
backtracking into later alternatives; the whole input must be consumed.
`%p` is matched and recorded but — exactly as in CPython's `_strptime` —
it only affects the hour when the format uses `%I`; with `%H` the AM/PM
value is parsed and then ignored.  After the regex match, constructing the
`datetime` revalidates the fields (day against the month length, seconds
at most 59, year at least 1). -/

inductive FTok where
  | lit (c : Char)
  | ws
  | tB | tD | tMon | tY | tH | tMin | tS | tP
  deriving DecidableEq, Repr

structure TParts where
  year : Nat := 1900
  month : Nat := 1
  day : Nat := 1
  hour : Nat := 0
  minute : Nat := 0
  second : Nat := 0
  ampm : Option Bool := none
  deriving DecidableEq, Repr

structure DateTime where
  year : Nat
  month : Nat
  day : Nat
  hour : Nat
  minute : Nat
  second : Nat
  deriving DecidableEq, Repr

/-- Full month names with their numbers, longest first (CPython sorts the
alternation by decreasing length; no name is a prefix of another, so at most
one alternative can match at a given position). -/
def monthNames : List (List Char × Nat) :=
  [("september".data, 9), ("november".data, 11), ("december".data, 12),
   ("february".data, 2), ("january".data, 1), ("october".data, 10),
   ("august".data, 8), ("april".data, 4), ("march".data, 3),
   ("june".data, 6), ("july".data, 7), ("may".data, 5)]

/-- Case-insensitive prefix match of a month name (`%B`). -/
def stripMonth (cs : List Char) : Option (Nat × List Char) :=
  go monthNames
where
  go : List (List Char × Nat) → Option (Nat × List Char)
    | [] => none
    | (name, m) :: rest =>
      if name.isPrefixOf (cs.map Char.toLower) then
        some (m, cs.drop name.length)
      else go rest

/-- Lazy `Option` alternative, used to encode ordered regex alternation
with backtracking into the continuation. -/
def oalt (a : Option α) (b : Unit → Option α) : Option α :=
  match a with
  | some x => some x
  | none => b ()

/-- Match a token list (compiled format string) against the input,
consuming all of it, with the regex-alternation semantics described above.
Structural recursion on the format: every alternative consumes the head
token. -/
def matchToks : List FTok → List Char → TParts → Option TParts
  | [], [], p => some p
  | [], _ :: _, _ => none
  | .lit c :: ts, d :: ds, p =>
    if c.toLower = d.toLower then matchToks ts ds p else none
  | .lit _ :: _, [], _ => none
  | .ws :: ts, ds, p =>
    let n := (ds.takeWhile Char.isWhitespace).length
    if n = 0 then none else matchToks ts (ds.drop n) p
  | .tB :: ts, ds, p =>
    match stripMonth ds with
    | some (m, rest) => matchToks ts rest { p with month := m }
    | none => none
  | .tD :: ts, c0 :: c1 :: ds, p =>
    oalt (if c0 = '3' && (c1 = '0' || c1 = '1') then
            matchToks ts ds { p with day := 30 + dv c1 } else none) fun _ =>
    oalt (if (c0 = '1' || c0 = '2') && c1.isDigit then
            matchToks ts ds { p with day := 10 * dv c0 + dv c1 } else none) fun _ =>
    oalt (if c0 = '0' && c1.isDigit && c1 ≠ '0' then
            matchToks ts ds { p with day := dv c1 } else none) fun _ =>
    (if c0.isDigit && c0 ≠ '0' then
            matchToks ts (c1 :: ds) { p with day := dv c0 } else none)
  | .tD :: ts, [c0], p =>
    if c0.isDigit && c0 ≠ '0' then matchToks ts [] { p with day := dv c0 } else none
  | .tD :: _, [], _ => none
  | .tMon :: ts, c0 :: c1 :: ds, p =>
    oalt (if c0 = '1' && (c1 = '0' || c1 = '1' || c1 = '2') then
            matchToks ts ds { p with month := 10 + dv c1 } else none) fun _ =>
    oalt (if c0 = '0' && c1.isDigit && c1 ≠ '0' then
            matchToks ts ds { p with month := dv c1 } else none) fun _ =>
    (if c0.isDigit && c0 ≠ '0' then
            matchToks ts (c1 :: ds) { p with month := dv c0 } else none)
  | .tMon :: ts, [c0], p =>
    if c0.isDigit && c0 ≠ '0' then matchToks ts [] { p with month := dv c0 } else none
  | .tMon :: _, [], _ => none
  | .tY :: ts, c0 :: c1 :: c2 :: c3 :: ds, p =>
    if c0.isDigit && c1.isDigit && c2.isDigit && c3.isDigit then
      matchToks ts ds
        { p with year := 1000 * dv c0 + 100 * dv c1 + 10 * dv c2 + dv c3 }
    else none
  | .tY :: _, _, _ => none
  | .tH :: ts, c0 :: c1 :: ds, p =>
    oalt (if c0 = '2' && (c1 = '0' || c1 = '1' || c1 = '2' || c1 = '3') then
            matchToks ts ds { p with hour := 20 + dv c1 } else none) fun _ =>
    oalt (if (c0 = '0' || c0 = '1') && c1.isDigit then
            matchToks ts ds { p with hour := 10 * dv c0 + dv c1 } else none) fun _ =>
    (if c0.isDigit then matchToks ts (c1 :: ds) { p with hour := dv c0 } else none)
  | .tH :: ts, [c0], p =>
    if c0.isDigit then matchToks ts [] { p with hour := dv c0 } else none
  | .tH :: _, [], _ => none
  | .tMin :: ts, c0 :: c1 :: ds, p =>
    oalt (if c0.isDigit && dv c0 ≤ 5 && c1.isDigit then
            matchToks ts ds { p with minute := 10 * dv c0 + dv c1 } else none) fun _ =>
    (if c0.isDigit then matchToks ts (c1 :: ds) { p with minute := dv c0 } else none)
  | .tMin :: ts, [c0], p =>
    if c0.isDigit then matchToks ts [] { p with minute := dv c0 } else none
  | .tMin :: _, [], _ => none
  | .tS :: ts, c0 :: c1 :: ds, p =>
    oalt (if c0 = '6' && (c1 = '0' || c1 = '1') then
            matchToks ts ds { p with second := 60 + dv c1 } else none) fun _ =>
    oalt (if c0.isDigit && dv c0 ≤ 5 && c1.isDigit then
            matchToks ts ds { p with second := 10 * dv c0 + dv c1 } else none) fun _ =>
    (if c0.isDigit then matchToks ts (c1 :: ds) { p with second := dv c0 } else none)
  | .tS :: ts, [c0], p =>
    if c0.isDigit then matchToks ts [] { p with second := dv c0 } else none
  | .tS :: _, [], _ => none
  | .tP :: ts, c0 :: c1 :: ds, p =>
    if (c0.toLower = 'a' || c0.toLower = 'p') && c1.toLower = 'm' then
      matchToks ts ds { p with ampm := some (c0.toLower = 'p') }
    else none
  | .tP :: _, _, _ => none

/-- Gregorian leap year, as Python's `calendar`/`datetime` use. -/
def isLeap (y : Nat) : Bool :=
  (y % 4 = 0 && y % 100 ≠ 0) || y % 400 = 0

def daysInMonth (y m : Nat) : Nat :=
  if m = 2 then (if isLeap y then 29 else 28)
  else if m = 4 || m = 6 || m = 9 || m = 11 then 30
  else 31

/-- The field validation `datetime.__new__` performs after the regex match
(`datetime.strptime` raises `ValueError` on e.g. February 30 or second 61). -/
def validDT (p : TParts) : Bool :=
  1 ≤ p.year && 1 ≤ p.month && p.month ≤ 12 &&
  1 ≤ p.day && p.day ≤ daysInMonth p.year p.month &&
  p.hour ≤ 23 && p.minute ≤ 59 && p.second ≤ 59

/-- `datetime.strptime(s, fmt)` with a `ValueError` modelled as `none`.
Note: the `ampm` capture of `%p` is dropped here, exactly as CPython drops
it when the format uses `%H` rather than `%I`. -/
def strptimeL (cs : List Char) (fmt : List FTok) : Option DateTime :=
  match matchToks fmt cs {} with
  | none => none
  | some p =>
    if validDT p then
      some ⟨p.year, p.month, p.day, p.hour, p.minute, p.second⟩
    else none

def litToks (s : String) : List FTok := s.data.map FTok.lit

/-- `"%B %d, %Y at %H:%M:%S UTC"` -/
def fmt1 : List FTok :=
  [.tB, .ws, .tD, .lit ',', .ws, .tY, .ws] ++ litToks "at" ++
  [.ws, .tH, .lit ':', .tMin, .lit ':', .tS, .ws] ++ litToks "UTC"

/-- `"%B %d, %Y %H:%M:%S UTC"` -/
def fmt2 : List FTok :=
  [.tB, .ws, .tD, .lit ',', .ws, .tY, .ws, .tH, .lit ':', .tMin, .lit ':',
   .tS, .ws] ++ litToks "UTC"

/-- `"%B %d, %Y %H:%M:%S %p UTC"` -/
def fmt3 : List FTok :=
  [.tB, .ws, .tD, .lit ',', .ws, .tY, .ws, .tH, .lit ':', .tMin, .lit ':',
   .tS, .ws, .tP, .ws] ++ litToks "UTC"

/-- `"%B %d,%Y %H:%M:%S UTC"` -/
def fmt4 : List FTok :=
  [.tB, .ws, .tD, .lit ',', .tY, .ws, .tH, .lit ':', .tMin, .lit ':',
   .tS, .ws] ++ litToks "UTC"

/-- `"%B %d, %Y, %H:%M:%S UTC"` -/
def fmt5 : List FTok :=
  [.tB, .ws, .tD, .lit ',', .ws, .tY, .lit ',', .ws, .tH, .lit ':', .tMin,
   .lit ':', .tS, .ws] ++ litToks "UTC"

/-- `"%B %d, %Y, at %H:%M:%S UTC"` -/
def fmt6 : List FTok :=
  [.tB, .ws, .tD, .lit ',', .ws, .tY, .lit ',', .ws] ++ litToks "at" ++
  [.ws, .tH, .lit ':', .tMin, .lit ':', .tS, .ws] ++ litToks "UTC"

/-- `"%B %d %Y %H:%M:%S UTC"` -/
def fmt7 : List FTok :=
  [.tB, .ws, .tD, .ws, .tY, .ws, .tH, .lit ':', .tMin, .lit ':',
   .tS, .ws] ++ litToks "UTC"

/-- `"%Y-%m-%d %H:%M:%S UTC"` -/
def fmt8 : List FTok :=
  [.tY, .lit '-', .tMon, .lit '-', .tD, .ws, .tH, .lit ':', .tMin, .lit ':',
   .tS, .ws] ++ litToks "UTC"

/-- `"%B %d, %Y %H:%M:%S"` -/
def fmt9 : List FTok :=
  [.tB, .ws, .tD, .lit ',', .ws, .tY, .ws, .tH, .lit ':', .tMin, .lit ':', .tS]

/-- `"%B %d, %Y at %H:%M:%S"` -/
def fmt10 : List FTok :=
  [.tB, .ws, .tD, .lit ',', .ws, .tY, .ws] ++ litToks "at" ++
  [.ws, .tH, .lit ':', .tMin, .lit ':', .tS]

/-- `"%B %d %Y %H:%M:%S"` (the last-resort reconstruction format). -/
def fmtFlex : List FTok :=
  [.tB, .ws, .tD, .ws, .tY, .ws, .tH, .lit ':', .tMin, .lit ':', .tS]

/-- The `formats_to_try` list of `parse_draw_datetime`. -/
def formatsToTry : List (List FTok) :=
  [fmt1, fmt2, fmt3, fmt4, fmt5, fmt6, fmt7, fmt8, fmt9, fmt10]

/-- The template cascade: return the first format that parses. -/
def tryFormats (cs : List Char) : List (List FTok) → Option DateTime
  | [] => none
  | f :: fs =>
    match strptimeL cs f with
    | some dt => some dt
    | none => tryFormats cs fs

/-! ### The ad-hoc regex searches of `parse_draw_datetime`

Each regex of the source (`re.search`/`re.sub`) is embedded as a
leftmost-match scanner with the same ordered-alternation backtracking.
Where an alternative is greedy (`\s+`, `[A-Za-z]+`), the following regex
token can never match a character of the same class, so the maximal-run
reading is equivalent to greedy-with-backtracking. -/

def countLeadWs (cs : List Char) : Nat :=
  (cs.takeWhile Char.isWhitespace).length

/-- Match `:\d{2}:\d{2}` at the head; return (matched text, rest). -/
def matchColonTail : List Char → Option (List Char × List Char)
  | ':' :: a :: b :: ':' :: c :: d :: rest =>
    if a.isDigit && b.isDigit && c.isDigit && d.isDigit then
      some ([':', a, b, ':', c, d], rest)
    else none
  | _ => none

/-- Match `\d{1,2}:\d{2}:\d{2}` at the head (greedy two digits, then one). -/
def matchHMSAt : List Char → Option (List Char × List Char)
  | c0 :: c1 :: rest =>
    oalt (if c0.isDigit && c1.isDigit then
            (matchColonTail rest).map (fun p => (c0 :: c1 :: p.1, p.2))
          else none) fun _ =>
    (if c0.isDigit then
            (matchColonTail (c1 :: rest)).map (fun p => (c0 :: p.1, p.2))
          else none)
  | _ => none

/-- `re.search(r'(\d{1,2}:\d{2}:\d{2})', s)`: leftmost match. -/
def searchHMS : List Char → Option (List Char)
  | [] => none
  | c :: t =>
    match matchHMSAt (c :: t) with
    | some p => some p.1
    | none => searchHMS t

/-- After the time part: `\s*(AM|PM)` with `IGNORECASE`; returns the
matched AM/PM text in its original case, as Python's group does. -/
def amPmAfter (rest : List Char) : Option (List Char) :=
  match rest.drop (countLeadWs rest) with
  | a :: m :: _ =>
    if (a.toLower = 'a' || a.toLower = 'p') && m.toLower = 'm' then
      some [a, m]
    else none
  | _ => none

/-- Match `(\d{1,2}:\d{2}:\d{2})\s*(AM|PM)` at the head. -/
def matchTimeAmPmAt : List Char → Option (List Char × List Char)
  | c0 :: c1 :: rest =>
    oalt (if c0.isDigit && c1.isDigit then
            match matchColonTail rest with
            | some (t, r) => (amPmAfter r).map fun ap => (c0 :: c1 :: t, ap)
            | none => none
          else none) fun _ =>
    (if c0.isDigit then
            match matchColonTail (c1 :: rest) with
            | some (t, r) => (amPmAfter r).map fun ap => (c0 :: t, ap)
            | none => none
          else none)
  | _ => none

/-- `re.search(r'(\d{1,2}:\d{2}:\d{2})\s*(AM|PM)', s, re.IGNORECASE)`. -/
def searchTimeAmPm : List Char → Option (List Char × List Char)
  | [] => none
  | c :: t =>
    match matchTimeAmPmAt (c :: t) with
    | some p => some p
    | none => searchTimeAmPm t

/-- After a comma: match `\s*at\s+` (case-sensitive, as in the source's
Pattern 5 regex); returns the number of characters consumed. -/
def tryCommaAt (cs : List Char) : Option Nat :=
  let w1 := countLeadWs cs
  match cs.drop w1 with
  | 'a' :: 't' :: rest =>
    let w2 := countLeadWs rest
    if w2 = 0 then none else some (w1 + 2 + w2)
  | _ => none

/-- `re.sub(r',\s*at\s+', ' at ', s)`: non-overlapping left-to-right
substitution; the replacement is not rescanned (structural fuel as in
`countOccF`; a match consumes the comma plus `k ≥ 3` further characters). -/
def subCommaAtF : Nat → List Char → List Char
  | 0, l => l
  | _, [] => []
  | fuel + 1, c :: t =>
    if c = ',' then
      match tryCommaAt t with
      | some k => ' ' :: 'a' :: 't' :: ' ' :: subCommaAtF fuel (t.drop k)
      | none => c :: subCommaAtF fuel t
    else c :: subCommaAtF fuel t

def subCommaAt (cs : List Char) : List Char :=
  subCommaAtF cs.length cs

/-- Match `,?\s+(\d{4})` (comma alternative only when `allowComma`);
returns the four year digits. -/
def yearWs (r : List Char) : Option (List Char) :=
  let w := countLeadWs r
  if w = 0 then none
  else
    match r.drop w with
    | a :: b :: c :: d :: _ =>
      if a.isDigit && b.isDigit && c.isDigit && d.isDigit then
        some [a, b, c, d]
      else none
    | _ => none

def yearAfter (allowComma : Bool) (r : List Char) : Option (List Char) :=
  oalt (if allowComma then
          match r with
          | ',' :: r2 => yearWs r2
          | _ => none
        else none) fun _ => yearWs r

/-- Match `(\d{1,2}),?\s+(\d{4})` (greedy day, ordered alternation). -/
def matchDayYear (allowComma : Bool) : List Char → Option (List Char × List Char)
  | c0 :: c1 :: r =>
    oalt (if c0.isDigit && c1.isDigit then
            (yearAfter allowComma r).map fun y => ([c0, c1], y)
          else none) fun _ =>
    (if c0.isDigit then
            (yearAfter allowComma (c1 :: r)).map fun y => ([c0], y)
          else none)
  | _ => none

/-- Match `([A-Za-z]+)\s+(\d{1,2}),?\s+(\d{4})` at the head
(`allowComma := false` gives the Pattern-6 regex without `,?`). -/
def matchMDYAt (allowComma : Bool) (cs : List Char) : Option (List Char × List Char × List Char) :=
  match cs.takeWhile Char.isAlpha with
  | [] => none
  | l0 :: lrest =>
    let rest1 := cs.drop (l0 :: lrest).length
    let w1 := countLeadWs rest1
    if w1 = 0 then none
    else
      match matchDayYear allowComma (rest1.drop w1) with
      | some (day, year) => some (l0 :: lrest, day, year)
      | none => none

/-- Leftmost search for the month/day/year triple. -/
def searchMDY (allowComma : Bool) : List Char → Option (List Char × List Char × List Char)
  | [] => none
  | c :: t =>
    match matchMDYAt allowComma (c :: t) with
    | some x => some x
    | none => searchMDY allowComma t

/-! ### `parse_draw_datetime` -/

/-- Pattern 1 of the source: on a string containing `"202"` more than once,
scan the whitespace-split parts for an ISO-looking fragment and parse
`f"{parts[i]} {parts[i+1]} UTC"` with `"%Y-%m-%d %H:%M:%S UTC"`.
A `ValueError` from `strptime` aborts the whole block (the `except` around
it sits outside the loop), which like a completed loop just falls through
to the repair pipeline — in both cases the result here is `none`. -/
def p1Go (parts : List (List Char)) : List (List Char) → Option DateTime
  | [] => none
  | part :: rest =>
    if "202".data.isPrefixOf part && occursIn ['-'] part &&
        occursIn [':'] (joinSp (parts.drop (List.indexOf part parts))) then
      let isoIndex := List.indexOf part parts
      if isoIndex + 1 < parts.length &&
          occursIn [':'] (parts.getD (isoIndex + 1) []) then
        strptimeL (parts.getD isoIndex [] ++ ' ' ::
          (parts.getD (isoIndex + 1) [] ++ ' ' :: "UTC".data)) fmt8
      else p1Go parts rest
    else p1Go parts rest

def pattern1 (cs : List Char) : Option DateTime :=
  if occursIn "202".data cs && decide (1 < countOcc '2' ['0', '2'] cs) then
    p1Go (splitWs cs) (splitWs cs)
  else none

/-- `ExpressEntryManager.parse_draw_datetime` (src/Draws.py:97–185).
Returns `none` where the source returns `None` (after logging a warning);
every exception path of the source is caught there, so the embedding is a
total function into `Option DateTime`. -/
def parseDrawDatetime (s : String) : Option DateTime :=
  if s = "" then none
  else
    let cs0 := pyStrip s.data
    match pattern1 cs0 with
    | some dt => some dt
    | none =>
      -- Pattern 2: missing space after 'at'
      let cs1 :=
        if occursIn "at".data cs0 && !occursIn "at ".data cs0 then
          pyReplace "at".data "at ".data cs0
        else cs0
      -- Pattern 3: collapse double spaces (single pass)
      let cs2 := pyReplace "  ".data " ".data cs1
      -- Pattern 4: strip AM/PM when the written hour is already ≥ 13
      let cs3 :=
        match searchTimeAmPm cs2 with
        | some (timePart, amPm) =>
          if 13 ≤ toNatL (timePart.takeWhile (fun c => c ≠ ':')) then
            pyReplace amPm [] (pyReplace (' ' :: amPm) [] cs2)
          else cs2
        | none => cs2
      -- Pattern 5: drop a comma immediately before 'at'
      let cs4 := subCommaAt cs3
      -- Pattern 6: insert the missing comma between day and year
      let cs5 :=
        match searchMDY false cs4 with
        | some (mo, dy, yr) =>
          if !occursIn [','] cs4 then
            pyReplace (mo ++ ' ' :: (dy ++ ' ' :: yr))
              (mo ++ ' ' :: (dy ++ ',' :: ' ' :: yr)) cs4
          else cs4
        | none => cs4
      match tryFormats cs5 formatsToTry with
      | some dt => some dt
      | none =>
        -- last-resort reconstruction
        match searchMDY true cs5 with
        | some (mo, dy, yr) =>
          match searchHMS cs5 with
          | some t =>
            strptimeL (mo ++ ' ' :: (dy ++ ' ' :: (yr ++ ' ' :: t))) fmtFlex
          | none => none
        | none => none

/-! ### Record model and synchronizer (src/Draws.py:73–246)

A draw record's canonical fields, as the `selected_columns` projection
keeps them; the auxiliary `dd1..dd18`/text columns are carried through
unmodified by the source and are irrelevant to every claim, so they are
not spelled out. -/

structure Round where
  drawNumber : Int
  drawDate : String
  drawDateTime : Option String
  deriving DecidableEq, Repr

/-- The fetched API payload: the `"rounds"` list of the JSON dict.  Other
top-level keys are never read by the synchronizer. -/
structure Fetched where
  rounds : List Round
  deriving DecidableEq, Repr

/-- The persisted `Data/EE.json` file: the `"rounds"` list plus the
`"metadata"` block (its `updated_at` string). -/
structure PersistedFile where
  rounds : List Round
  updatedAt : Option String
  deriving DecidableEq, Repr

inductive LogLevel where
  | info | warning | error
  deriving DecidableEq, Repr

/-- Sort key of `sort_values('drawDate', ascending=False)`: `a` before `b`
when `a.drawDate ≥ b.drawDate` (pandas compares the date strings). -/
def dateDesc (a b : Round) : Prop := b.drawDate ≤ a.drawDate

instance : DecidableRel dateDesc := fun a b =>
  inferInstanceAs (Decidable (b.drawDate ≤ a.drawDate))

instance : IsTotal Round dateDesc :=
  ⟨fun a b => le_total b.drawDate a.drawDate⟩

instance : IsTrans Round dateDesc :=
  ⟨fun _ _ _ h1 h2 => le_trans h2 h1⟩

/-- `ExpressEntryManager.process_draw_data` (src/Draws.py:89–95): project
to the selected columns and sort by `drawDate` descending.  pandas'
default unstable quicksort is modelled by a comparison sort; the source
specifies no order among records with equal dates. -/
def processDrawData (rounds : List Round) : List Round :=
  List.insertionSort dateDesc rounds

/-- `ExpressEntryManager.get_existing_data` (src/Draws.py:73–87): the
projected DataFrame of the persisted `"rounds"`, or `None` when the file
does not exist.  Its length is the number of persisted rounds. -/
def getExistingData (file : Option PersistedFile) : Option (List Round) :=
  file.map (fun f => f.rounds)

def existingCountOf (file : Option PersistedFile) : Nat :=
  match getExistingData file with
  | some df => df.length
  | none => 0

/-- `ExpressEntryManager.update_data` (src/Draws.py:187–223), with the
external effects made explicit: `fetchRes` is the outcome of
`fetch_json_data` (`none` = request exception), `now` is the local
timestamp used for the metadata block, and `writeOk` says whether the
`json.dump` file writes succeed.  The result is the returned
`(success, existing_count, new_count)` triple, the persisted file after
the call, and the log lines with their levels (messages abbreviated
without the interpolated counts; on a failed write the on-disk bytes are
not consulted by anything, and the prior state is kept).  Any exception
is caught by the blanket handler, which logs an error and returns
`(False, 0, 0)`. -/
def updateData (file : Option PersistedFile) (fetchRes : Option Fetched)
    (now : String) (writeOk : Bool) :
    (Bool × Nat × Nat) × Option PersistedFile × List (LogLevel × String) :=
  match fetchRes with
  | none => ((false, 0, 0), file, [(.error, "Update failed")])
  | some data =>
    let newCount := (processDrawData data.rounds).length
    let withMeta : PersistedFile := ⟨data.rounds, some now⟩
    let existingCount := existingCountOf file
    if existingCount = newCount ∧ (getExistingData file).isSome then
      if writeOk then
        ((false, existingCount, newCount), some withMeta,
          [(.info, "Number of draws unchanged"), (.info, "Updated metadata")])
      else
        ((false, 0, 0), file,
          [(.info, "Number of draws unchanged"), (.error, "Update failed")])
    else
      if writeOk then
        ((true, existingCount, newCount), some withMeta,
          [(.info, "Updated data")])
      else
        ((false, 0, 0), file, [(.error, "Update failed")])

/-- `ExpressEntryManager.check_data_freshness` (src/Draws.py:236–246):
compare the persisted count against the live API count; the bare `except`
turns any fetch failure into "no update needed". -/
def checkDataFreshness (file : Option PersistedFile) (fetchRes : Option Fetched) :
    Bool × Nat × Nat :=
  let existingCount := existingCountOf file
  match fetchRes with
  | some data => (decide (existingCount < data.rounds.length), existingCount,
      data.rounds.length)
  | none => (false, existingCount, 0)

/-- The gating of `src/Data/automation.py` (lines 67–86): `update_data`
(and the rest of the notification pipeline) runs exactly when
`check_data_freshness` reported `needs_update`. -/
def automationRunsUpdate (file : Option PersistedFile)
    (fetchRes : Option Fetched) : Bool :=
  (checkDataFreshness file fetchRes).1

/-! ### Statistics engine: `analyze_draws` (src/Draws.py:297–358)

The numeric analysis over the persisted `"rounds"`.  A raw round is
modelled by its three analysed columns; for each, the outer `Option` is
presence of the key in the record dict (a column missing from every
record does not exist in the DataFrame and raises `KeyError` on access,
which the caller catches at line 402), the inner `Option` is the result
of the `errors='coerce'` conversion (`none` = NaN/NaT).  Numbers are
embedded as exact rationals; the guards the claims are about
(`isnull().all()` and `mean() != 0`) are decided on the same values the
floats carry. -/

structure StatRound where
  drawDate : Option (Option Unit)
  drawSize : Option (Option ℚ)
  drawCRS : Option (Option ℚ)
  deriving DecidableEq

inductive NumStat where
  | na
  | val (q : ℚ)
  deriving DecidableEq

/-- The coefficient of variation `std/mean*100` involves a float square
root, which has no exact rational value; since every claim about it only
concerns availability ("N/A" or not), an available CV is carried by its
determining data (the non-null values and their mean). -/
inductive CVStat where
  | na
  | val (vals : List ℚ) (mean : ℚ)
  deriving DecidableEq

inductive DateStat where
  | na
  | avail
  deriving DecidableEq

inductive AnalysisError where
  | keyError
  deriving DecidableEq

structure Analysis where
  totalDraws : Nat
  earliest : DateStat
  latest : DateStat
  sizeHighest : NumStat
  sizeAverage : NumStat
  sizeLowest : NumStat
  sizeCV : CVStat
  crsHighest : NumStat
  crsAverage : NumStat
  crsLowest : NumStat
  crsCV : CVStat
  deriving DecidableEq

/-- Python 3 `round(q, 2)`: round half to even at two decimals. -/
def round2 (q : ℚ) : ℚ :=
  let x := q * 100
  let n := Int.floor x
  let frac := x - n
  (if frac < 1 / 2 then n
   else if 1 / 2 < frac then n + 1
   else if n % 2 = 0 then n else n + 1 : ℚ) / 100

/-- Python `int(x)` on a rational: truncation toward zero. -/
def pyInt (q : ℚ) : Int := q.num / (q.den : Int)

def someVals (xs : List (Option ℚ)) : List ℚ := xs.filterMap id

def allNull (xs : List (Option ℚ)) : Bool := xs.all Option.isNone

def meanOf (vals : List ℚ) : ℚ := vals.sum / (vals.length : ℚ)

def listMax : List ℚ → ℚ
  | [] => 0
  | x :: xs => xs.foldl max x

def listMin : List ℚ → ℚ
  | [] => 0
  | x :: xs => xs.foldl min x

/-- The four statistics of one numeric column (lines 330–340 / 342–353):
`highest`/`lowest` are `int(max)`/`int(min)`, `average` is
`round(mean, 2)`, each "N/A" when every value is null; the CV is "N/A"
also when the mean is exactly zero (the divide-by-zero guard). -/
def colStats (xs : List (Option ℚ)) : NumStat × NumStat × NumStat × CVStat :=
  let vals := someVals xs
  (if allNull xs then .na else .val ((pyInt (listMax vals) : Int) : ℚ),
   if allNull xs then .na else .val (round2 (meanOf vals)),
   if allNull xs then .na else .val ((pyInt (listMin vals) : Int) : ℚ),
   if allNull xs = false ∧ meanOf vals ≠ 0 then .val vals (meanOf vals) else .na)

def colOf (f : StatRound → Option (Option ℚ)) (rounds : List StatRound) :
    List (Option ℚ) :=
  rounds.map (fun r => (f r).join)

def hasCol {β : Type} (f : StatRound → Option β) (rounds : List StatRound) : Bool :=
  rounds.any (fun r => (f r).isSome)

/-- The analysis computation of `analyze_draws` on the loaded `"rounds"`
(src/Draws.py:303–358).  Accessing a column that exists in no record —
in particular any column of the empty DataFrame built from an empty
round list — raises `KeyError`, which escapes to the handler at line 402
("Failed to analyze JSON file"); no statistics report is produced then. -/
def analyzeDrawsCore (rounds : List StatRound) : Except AnalysisError Analysis :=
  if !hasCol StatRound.drawDate rounds then .error .keyError
  else if !hasCol StatRound.drawSize rounds then .error .keyError
  else if !hasCol StatRound.drawCRS rounds then .error .keyError
  else
    let dates := rounds.map (fun r => r.drawDate.join)
    let sizes := colOf StatRound.drawSize rounds
    let crs := colOf StatRound.drawCRS rounds
    let sizeStats := colStats sizes
    let crsStats := colStats crs
    .ok
      { totalDraws := rounds.length
        earliest := if dates.all Option.isNone then .na else .avail
        latest := if dates.all Option.isNone then .na else .avail
        sizeHighest := sizeStats.1
        sizeAverage := sizeStats.2.1
        sizeLowest := sizeStats.2.2.1
        sizeCV := sizeStats.2.2.2
        crsHighest := crsStats.1
        crsAverage := crsStats.2.1
        crsLowest := crsStats.2.2.1
        crsCV := crsStats.2.2.2 }

/-- Project a field of a successful analysis (`none` when the analysis
failed with an exception). -/
def okStat {α : Type} (e : Except AnalysisError Analysis) (f : Analysis → α) :
    Option α :=
  match e with
  | .ok a => some (f a)
  | .error _ => none

/-! ### Time analysis: `analyze_draw_times` (src/Draws.py:451–551)

Every record's `drawDateTime` is run through the parser (records with a
falsy — missing or empty — value are skipped), hours are bucketed into a
24-slot count array, and the mode is reported as a contiguous range.
The chart payload lists (`draw_times`, `draw_timeline`) are not consulted
by any claim and are omitted from the embedding. -/

/-- The hours of the successfully parsed records, in record order. -/
def validHours (draws : List (Option String)) : List Nat :=
  draws.filterMap fun dt =>
    match dt with
    | none => none
    | some s => if s = "" then none else (parseDrawDatetime s).map DateTime.hour

/-- `hour_counts[hour] += 1` over a 24-slot array. -/
def hourCountsOf (hours : List Nat) : List Nat :=
  hours.foldl (fun acc h => acc.set h (acc.getD h 0 + 1)) (List.replicate 24 0)

/-- Python `max(hour_counts)` (the list is the nonempty 24-slot array). -/
def maxCountOf (counts : List Nat) : Nat := counts.foldl max 0

/-- `[i for i, c in enumerate(hour_counts) if c == max_count]`. -/
def maxIndicesOf (counts : List Nat) : List Nat :=
  (counts.enum.filter (fun p => p.2 = maxCountOf counts)).map (fun p => p.1)

/-- The consecutive-run grouping loop (src/Draws.py:506–514). -/
def rangesAux (start stop : Nat) : List Nat → List (Nat × Nat)
  | [] => [(start, stop)]
  | idx :: rest =>
    if idx = stop + 1 then rangesAux start idx rest
    else (start, stop) :: rangesAux idx idx rest

def rangesOf : List Nat → List (Nat × Nat)
  | [] => []
  | i :: rest => rangesAux i i rest

/-- The sort key comparison of `max(ranges, key=lambda r: (r[1]-r[0]+1, -r[0]))`:
`a` has a strictly larger key than `b`. -/
def keyGt (a b : Nat × Nat) : Bool :=
  a.2 - a.1 + 1 > b.2 - b.1 + 1 ||
  (a.2 - a.1 + 1 = b.2 - b.1 + 1 && a.1 < b.1)

/-- Python `max(ranges, key=...)`: first element with maximal key
(`max` keeps the current best on ties). -/
def bestRange : List (Nat × Nat) → Nat × Nat
  | [] => (0, 0)
  | r :: rs => rs.foldl (fun b x => if keyGt x b then x else b) r

/-- `_fmt_hour` (src/Draws.py:517–523). -/
def fmtHour (h : Nat) : String :=
  let hMod := h % 24
  let suffix := if hMod < 12 then "AM" else "PM"
  let hour12 := if hMod % 12 = 0 then 12 else hMod % 12
  toString hour12 ++ " " ++ suffix

/-- `most_common_hour` (src/Draws.py:501–529). -/
def mostCommonHourOf (counts : List Nat) (totalDraws : Nat) : Option String :=
  if 0 < totalDraws then
    if (maxIndicesOf counts).isEmpty then none
    else
      some (fmtHour (bestRange (rangesOf (maxIndicesOf counts))).1 ++ " - " ++
        fmtHour ((bestRange (rangesOf (maxIndicesOf counts))).2 + 1))
  else none

/-- `sum(hour * count for hour, count in enumerate(hour_counts))`. -/
def weightedHourSum (counts : List Nat) : Nat :=
  (counts.enum.map (fun p => p.1 * p.2)).sum

/-- `average_hour` (src/Draws.py:530, 536): the count-weighted mean hour,
rounded to two decimals — but reported only when `avg_hour` is truthy, so
an exact average of `0.0` is reported as not available. -/
def averageHourOf (counts : List Nat) (totalDraws : Nat) : Option ℚ :=
  let avgHour : Option ℚ :=
    if 0 < totalDraws then
      some ((weightedHourSum counts : ℚ) / (totalDraws : ℚ))
    else none
  match avgHour with
  | none => none
  | some q => if q = 0 then none else some (round2 q)

structure TimeAnalysis where
  totalDrawsWithTimes : Nat
  hourDistribution : List Nat
  mostCommonHour : Option String
  averageHour : Option ℚ
  deriving DecidableEq

/-- `ExpressEntryManager.analyze_draw_times` on the persisted rounds'
`drawDateTime` strings. -/
def analyzeDrawTimes (draws : List (Option String)) : TimeAnalysis :=
  { totalDrawsWithTimes := (validHours draws).length
    hourDistribution := hourCountsOf (validHours draws)
    mostCommonHour :=
      mostCommonHourOf (hourCountsOf (validHours draws)) (validHours draws).length
    averageHour :=
      averageHourOf (hourCountsOf (validHours draws)) (validHours draws).length }

/-! ### Concrete records used by witnesses and counterexamples -/

def exR1 : Round := ⟨1, "2024-01-01", none⟩

def exR2 : Round := ⟨2, "2024-02-02", none⟩

def exStatRound : StatRound := ⟨some (some ()), some none, some none⟩

def exStatRound2 : StatRound := ⟨some (some ()), some (some 0), some (some 0)⟩

/-! ### Helper lemmas -/

theorem length_processDrawData (l : List Round) :
    (processDrawData l).length = l.length :=
  (List.perm_insertionSort dateDesc l).length_eq

/-- With the fetch succeeding and the write succeeding, `update_data`
always rewrites the file to the fetched rounds plus fresh metadata
(both the changed and the unchanged branch dump `data`). -/
theorem updateData_writeOk_state (s0 : Option PersistedFile) (d : Fetched)
    (t : String) :
    (updateData s0 (some d) t true).2.1 = some ⟨d.rounds, some t⟩ := by
  unfold updateData
  dsimp only
  split
  · rfl
  · rfl

/-- The unchanged branch of `update_data`: equal counts with an existing
file give `changed = false`, a metadata-only rewrite and two info logs. -/
theorem updateData_unchanged (s : PersistedFile) (d : Fetched) (t : String)
    (h : s.rounds.length = d.rounds.length) :
    updateData (some s) (some d) t true =
      ((false, s.rounds.length, d.rounds.length), some ⟨d.rounds, some t⟩,
        [(LogLevel.info, "Number of draws unchanged"),
         (LogLevel.info, "Updated metadata")]) := by
  unfold updateData
  dsimp only
  have hcond : existingCountOf (some s) = (processDrawData d.rounds).length ∧
      (getExistingData (some s)).isSome = true := by
    refine ⟨?_, rfl⟩
    rw [length_processDrawData]
    exact h
  rw [if_pos hcond, length_processDrawData]
  rfl

/-- Any failing file write makes `update_data` return the blanket
handler's `(False, 0, 0)`, on both branches. -/
theorem updateData_writeFail_result (s0 : Option PersistedFile) (d : Fetched)
    (t : String) :
    (updateData s0 (some d) t false).1 = (false, 0, 0) := by
  unfold updateData
  dsimp only
  split
  · rfl
  · rfl

/-! ### Claims -/

/-- C1: Idempotence of synchronization.  After a first `update_data` call
has persisted a fetched record sequence, a second call with identical
fetched input returns `changed = false` and persists an identical
`"rounds"` collection (byte-identical records; per §4.3/§6 of the design,
the auxiliary `updated_at` metadata block is refreshed independently of
the `changed` signal and is not part of the record collection). -/
theorem c1_sync_idempotent (s0 : Option PersistedFile) (d : Fetched)
    (t1 t2 : String) :
    (updateData (updateData s0 (some d) t1 true).2.1 (some d) t2 true).1.1
      = false ∧
    Option.map PersistedFile.rounds
        (updateData (updateData s0 (some d) t1 true).2.1 (some d) t2 true).2.1
      = Option.map PersistedFile.rounds (updateData s0 (some d) t1 true).2.1 := by
  rw [updateData_writeOk_state s0 d t1]
  have hcond : existingCountOf (some ⟨d.rounds, some t1⟩) =
      (processDrawData d.rounds).length ∧
      (getExistingData (some ⟨d.rounds, some t1⟩)).isSome = true := by
    refine ⟨?_, rfl⟩
    simp [existingCountOf, getExistingData, length_processDrawData]
  constructor
  · unfold updateData
    dsimp only
    rw [if_pos hcond]
    rfl
  · rw [updateData_writeOk_state (some ⟨d.rounds, some t1⟩) d t2]
    rfl

/-- C2 counterexample: the claim "every persisted collection produced by
the synchronizer is sorted by date descending (ties by number
descending)" is false.  `update_data` persists the raw fetched
`data["rounds"]` (the sorted DataFrame `new_df` is only used for its
length), so a feed arriving in ascending date order is persisted exactly
as it arrived: its first adjacent pair has `drawDate` "2024-01-01" <
"2024-02-02", violating the claimed invariant. -/
theorem c2_counterexample :
    (updateData none (some ⟨[exR1, exR2]⟩) "t" true).2.1 =
      some ⟨[exR1, exR2], some "t"⟩ ∧
    ¬ dateDesc exR1 exR2 := by
  constructor
  · exact updateData_writeOk_state none ⟨[exR1, exR2]⟩ "t"
  · show ¬ (("2024-02-02" : String) ≤ "2024-01-01")
    rw [String.le_iff_toList_le]
    decide

/-- C2 amended: the in-memory DataFrame built by `process_draw_data` is
sorted by `drawDate` descending (any two adjacent records satisfy
first ≥ second on dates; no tie-break on `drawNumber` is guaranteed by
the unstable sort), while the collection persisted by `update_data` is
the fetched feed order, unsorted. -/
theorem c2_amended_sort (rounds : List Round) (file : Option PersistedFile)
    (d : Fetched) (t : String) :
    List.Chain' dateDesc (processDrawData rounds) ∧
    (updateData file (some d) t true).2.1 = some ⟨d.rounds, some t⟩ :=
  ⟨(List.sorted_insertionSort dateDesc rounds).chain',
   updateData_writeOk_state file d t⟩

/-- C3 (code bug): evaluating the parser of the source at the failing
input.  `"October 25, 2023 03:48:39 PM UTC"` reaches the template
`"%B %d, %Y %H:%M:%S %p UTC"`, where CPython's `strptime` parses `%p` but
only applies it to the hour when the format uses `%I`; with `%H` the PM
suffix is silently ignored, so the parsed hour is 3, not the 15 the
specification (and the surrounding code's own AM/PM handling, which
deliberately keeps the suffix exactly when the hour is < 13 so that a
later template can apply it) intends. -/
theorem c3_pm_hour_eval :
    parseDrawDatetime "October 25, 2023 03:48:39 PM UTC" =
      some ⟨2023, 10, 25, 3, 48, 39⟩ := by
  rfl

/-- C4: Totality of the temporal normalizer.  Every exception path inside
`parse_draw_datetime` is wrapped in a handler in the source, so the
embedding is a total function into `Option`: for every input string the
result is either a structured timestamp or the absent result, and both
`"garbage string"` and the empty string yield absent. -/
theorem c4_parse_total (s : String) :
    (parseDrawDatetime s = none ∨ ∃ dt, parseDrawDatetime s = some dt) ∧
    parseDrawDatetime "garbage string" = none ∧
    parseDrawDatetime "" = none := by
  refine ⟨?_, rfl, rfl⟩
  cases parseDrawDatetime s
  · exact Or.inl rfl
  · exact Or.inr ⟨_, rfl⟩

/-- C7 counterexample: the claim requires a warning to be emitted when
the feed shrinks.  On a shrink (persisted 2 records, fetched 1) the
source takes the generic overwrite branch and logs only
`logger.info("Updated data: ...")` — the complete log of the run contains
no warning-level entry, so "emits a warning" is false (the overwrite and
no-merge parts do hold). -/
theorem c7_counterexample :
    updateData (some ⟨[exR1, exR2], some "t0"⟩) (some ⟨[exR1]⟩) "t1" true =
      ((true, 2, 1), some ⟨[exR1], some "t1"⟩,
        [(LogLevel.info, "Updated data")]) := by
  rfl

/-- C7 amended: for every fetched sequence strictly shorter than the
persisted collection, `update_data` still overwrites the persisted file
with the smaller fetched set, returns `changed = true`, never merges the
stale persisted records back in, and logs an info-level message (not a
warning). -/
theorem c7_amended_shrink (s : PersistedFile) (d : Fetched) (t : String)
    (h : d.rounds.length < s.rounds.length) :
    updateData (some s) (some d) t true =
      ((true, s.rounds.length, d.rounds.length), some ⟨d.rounds, some t⟩,
        [(LogLevel.info, "Updated data")]) := by
  unfold updateData
  dsimp only
  have hneg : ¬ (existingCountOf (some s) = (processDrawData d.rounds).length ∧
      (getExistingData (some s)).isSome = true) := by
    intro hc
    have h1 : s.rounds.length = d.rounds.length := by
      have h0 := hc.1
      rw [length_processDrawData] at h0
      exact h0
    omega
  rw [if_neg hneg, length_processDrawData]
  rfl

theorem c7_amended_shrink_witness :
    updateData (some ⟨[exR1, exR2], some "t0"⟩) (some ⟨[exR1]⟩) "t2" true =
      ((true, 2, 1), some ⟨[exR1], some "t2"⟩,
        [(LogLevel.info, "Updated data")]) :=
  c7_amended_shrink ⟨[exR1, exR2], some "t0"⟩ ⟨[exR1]⟩ "t2" (by decide)

/-- C8: Persistence-failure distinctness, in the claim's witnessed form:
there is a persisted state for which the triple `update_data` returns
when the output-file write fails — the blanket handler's
`(False, 0, 0)` — differs from the triple returned when the data is
merely unchanged, `(False, priorCount, newCount)` with a nonzero count
(here: a one-record persisted state; write failure while persisting a
two-record fetch yields `(false, 0, 0)`, an unchanged one-record fetch
yields `(false, 1, 1)`). -/
theorem c8_write_failure_distinct :
    (updateData (some ⟨[exR1], some "t0"⟩) (some ⟨[exR1, exR2]⟩) "t1" false).1
      = (false, 0, 0) ∧
    (updateData (some ⟨[exR1], some "t0"⟩) (some ⟨[exR1]⟩) "t1" true).1
      = (false, 1, 1) ∧
    ((false, 0, 0) : Bool × Nat × Nat) ≠ ((false, 1, 1) : Bool × Nat × Nat) := by
  refine ⟨updateData_writeFail_result _ _ _, ?_, by decide⟩
  rw [updateData_unchanged ⟨[exR1], some "t0"⟩ ⟨[exR1]⟩ "t1" rfl]
  rfl

/-! ### Facts about the mode-range selection, for C5 -/

theorem keyGt_self (x : Nat × Nat) : keyGt x x = false := by
  simp only [keyGt, Bool.or_eq_false_iff, Bool.and_eq_false_iff,
    decide_eq_false_iff_not, decide_eq_true_eq]
  omega

theorem keyGt_asymm (x y : Nat × Nat) (h : keyGt x y = true) :
    keyGt y x = false := by
  simp only [keyGt, Bool.or_eq_true, Bool.and_eq_true, decide_eq_true_eq] at h
  simp only [keyGt, Bool.or_eq_false_iff, Bool.and_eq_false_iff,
    decide_eq_false_iff_not, decide_eq_true_eq]
  omega

theorem keyGt_false_trans (a b c : Nat × Nat) (h1 : keyGt b a = false)
    (h2 : keyGt c b = false) : keyGt c a = false := by
  simp only [keyGt, Bool.or_eq_false_iff, Bool.and_eq_false_iff,
    decide_eq_false_iff_not, decide_eq_true_eq] at h1 h2 ⊢
  omega

theorem foldlBest_mem (l : List (Nat × Nat)) (init : Nat × Nat) :
    l.foldl (fun b x => if keyGt x b then x else b) init = init ∨
    l.foldl (fun b x => if keyGt x b then x else b) init ∈ l := by
  induction l generalizing init with
  | nil => exact Or.inl rfl
  | cons y ys ih =>
    simp only [List.foldl_cons]
    by_cases hk : keyGt y init = true
    · rw [if_pos hk]
      rcases ih y with h | h
      · rw [h]; exact Or.inr (List.mem_cons_self y ys)
      · exact Or.inr (List.mem_cons_of_mem y h)
    · rw [if_neg hk]
      rcases ih init with h | h
      · exact Or.inl h
      · exact Or.inr (List.mem_cons_of_mem y h)

theorem foldlBest_not_beaten (l : List (Nat × Nat)) (init : Nat × Nat) :
    keyGt init (l.foldl (fun b x => if keyGt x b then x else b) init) = false ∧
    ∀ r ∈ l, keyGt r (l.foldl (fun b x => if keyGt x b then x else b) init)
      = false := by
  induction l generalizing init with
  | nil => exact ⟨keyGt_self init, fun r hr => absurd hr (List.not_mem_nil r)⟩
  | cons y ys ih =>
    simp only [List.foldl_cons]
    by_cases hk : keyGt y init = true
    · rw [if_pos hk]
      obtain ⟨ha, hb⟩ := ih y
      refine ⟨keyGt_false_trans _ y init ha (keyGt_asymm y init hk), ?_⟩
      intro r hr
      rcases List.mem_cons.mp hr with h | h
      · subst h; exact ha
      · exact hb r h
    · rw [if_neg hk]
      obtain ⟨ha, hb⟩ := ih init
      refine ⟨ha, ?_⟩
      intro r hr
      rcases List.mem_cons.mp hr with h | h
      · subst h
        exact keyGt_false_trans _ init r ha (Bool.eq_false_iff.mpr hk)
      · exact hb r h

theorem bestRange_mem (l : List (Nat × Nat)) (h : l ≠ []) :
    bestRange l ∈ l := by
  match l with
  | [] => exact absurd rfl h
  | r :: rs =>
    show (rs.foldl (fun b x => if keyGt x b then x else b) r) ∈ r :: rs
    rcases foldlBest_mem rs r with h1 | h1
    · rw [h1]; exact List.mem_cons_self r rs
    · exact List.mem_cons_of_mem r h1

theorem bestRange_not_beaten (l : List (Nat × Nat)) :
    ∀ r ∈ l, keyGt r (bestRange l) = false := by
  match l with
  | [] => exact fun r hr => absurd hr (List.not_mem_nil r)
  | r0 :: rs =>
    intro r hr
    obtain ⟨ha, hb⟩ := foldlBest_not_beaten rs r0
    rcases List.mem_cons.mp hr with h | h
    · subst h; exact ha
    · exact hb r h

theorem hourCountsOf_length (hours : List Nat) :
    (hourCountsOf hours).length = 24 := by
  have aux : ∀ (hs : List Nat) (acc : List Nat),
      (hs.foldl (fun acc h => acc.set h (acc.getD h 0 + 1)) acc).length
        = acc.length := by
    intro hs
    induction hs with
    | nil => intro acc; rfl
    | cons x xs ih =>
      intro acc
      simp only [List.foldl_cons]
      rw [ih]
      exact List.length_set acc x _
  unfold hourCountsOf
  rw [aux]
  exact List.length_replicate 24 0

theorem foldl_max_mem (xs : List Nat) (a : Nat) :
    xs.foldl max a = a ∨ xs.foldl max a ∈ xs := by
  induction xs generalizing a with
  | nil => exact Or.inl rfl
  | cons x xs ih =>
    simp only [List.foldl_cons]
    rcases ih (max a x) with h | h
    · rw [h]
      rcases max_choice a x with h2 | h2
      · exact Or.inl h2
      · rw [h2]
        exact Or.inr (List.mem_cons_self x xs)
    · exact Or.inr (List.mem_cons_of_mem x h)

theorem maxCountOf_mem (counts : List Nat) (h : counts ≠ []) :
    maxCountOf counts ∈ counts := by
  match counts with
  | [] => exact absurd rfl h
  | c :: cs =>
    unfold maxCountOf
    simp only [List.foldl_cons, Nat.zero_max]
    rcases foldl_max_mem cs c with h1 | h1
    · rw [h1]; exact List.mem_cons_self c cs
    · exact List.mem_cons_of_mem c h1

theorem maxIndicesOf_ne_nil (counts : List Nat) (h : counts ≠ []) :
    maxIndicesOf counts ≠ [] := by
  have hmem := maxCountOf_mem counts h
  obtain ⟨n, hn⟩ := List.mem_iff_get.mp hmem
  have henum : (n.val, maxCountOf counts) ∈ counts.enum := by
    rw [List.mk_mem_enum_iff_getElem?]
    rw [List.getElem?_eq_getElem n.isLt]
    simp [← hn, List.get_eq_getElem]
  have hfil : (n.val, maxCountOf counts) ∈
      counts.enum.filter (fun p => p.2 = maxCountOf counts) := by
    rw [List.mem_filter]
    exact ⟨henum, by simp⟩
  unfold maxIndicesOf
  intro hnil
  rw [List.map_eq_nil_iff] at hnil
  rw [hnil] at hfil
  exact List.not_mem_nil _ hfil

theorem rangesAux_ne_nil (l : List Nat) (s e : Nat) :
    rangesAux s e l ≠ [] := by
  induction l generalizing s e with
  | nil => simp [rangesAux]
  | cons x xs ih =>
    unfold rangesAux
    by_cases hx : x = e + 1
    · rw [if_pos hx]; exact ih s x
    · rw [if_neg hx]; simp

theorem rangesOf_ne_nil (l : List Nat) (h : l ≠ []) : rangesOf l ≠ [] := by
  match l with
  | [] => exact absurd rfl h
  | i :: rest => exact rangesAux_ne_nil rest i i

/-- C5: Contiguous-range mode.  For every input whose parsed-record count
is positive, `analyze_draw_times` reports the mode as the range
`[bestStart, bestEnd+1)` in 12-hour form, where the reported run is one
of the maximal consecutive runs of argmax hours and no other run has a
strictly better key (more hours, or equally many starting earlier); in
particular, when hours 14 and 15 alone achieve the maximum the report is
`"2 PM - 4 PM"`. -/
theorem c5_mode_range (draws : List (Option String))
    (h : 0 < (validHours draws).length) :
    (analyzeDrawTimes draws).mostCommonHour =
      some (fmtHour (bestRange (rangesOf (maxIndicesOf
          (hourCountsOf (validHours draws))))).1 ++ " - " ++
        fmtHour ((bestRange (rangesOf (maxIndicesOf
          (hourCountsOf (validHours draws))))).2 + 1)) ∧
    bestRange (rangesOf (maxIndicesOf (hourCountsOf (validHours draws)))) ∈
      rangesOf (maxIndicesOf (hourCountsOf (validHours draws))) ∧
    (∀ r ∈ rangesOf (maxIndicesOf (hourCountsOf (validHours draws))),
      keyGt r (bestRange (rangesOf (maxIndicesOf
        (hourCountsOf (validHours draws))))) = false) ∧
    (maxIndicesOf (hourCountsOf (validHours draws)) = [14, 15] →
      (analyzeDrawTimes draws).mostCommonHour = some "2 PM - 4 PM") := by
  have hC : hourCountsOf (validHours draws) ≠ [] := by
    intro hnil
    have := hourCountsOf_length (validHours draws)
    rw [hnil] at this
    simp at this
  have hmi := maxIndicesOf_ne_nil _ hC
  have hr := rangesOf_ne_nil _ hmi
  refine ⟨?_, bestRange_mem _ hr, bestRange_not_beaten _, ?_⟩
  · show mostCommonHourOf (hourCountsOf (validHours draws))
      (validHours draws).length = _
    unfold mostCommonHourOf
    rw [if_pos h, if_neg (by simp [List.isEmpty_iff, hmi])]
  · intro h14
    show mostCommonHourOf (hourCountsOf (validHours draws))
      (validHours draws).length = _
    unfold mostCommonHourOf
    rw [if_pos h, h14]
    rfl

theorem c5_mode_range_witness :
    (analyzeDrawTimes [some "March 20, 2023 14:30:00 UTC",
        some "March 21, 2023 15:30:00 UTC"]).mostCommonHour =
      some "2 PM - 4 PM" := by
  exact (c5_mode_range [some "March 20, 2023 14:30:00 UTC",
    some "March 21, 2023 15:30:00 UTC"] (by decide)).2.2.2 (by rfl)

/-! ### Facts about the column statistics, for C6 -/

theorem colStats_all_null (xs : List (Option ℚ)) (h : allNull xs = true) :
    colStats xs = (.na, .na, .na, .na) := by
  unfold colStats
  dsimp only
  rw [if_pos h, if_pos h, if_pos h, if_neg]
  intro hc
  rw [hc.1] at h
  exact Bool.false_ne_true h

theorem colStats_cv_mean_zero (xs : List (Option ℚ))
    (h2 : meanOf (someVals xs) = 0) : (colStats xs).2.2.2 = CVStat.na := by
  unfold colStats
  dsimp only
  rw [if_neg]
  intro hc
  exact hc.2 h2

/-- When a column has at least one non-null value, `highest`, `average`
and `lowest` take the numeric (`val`) branch of lines 330–337. -/
theorem colStats_not_null (xs : List (Option ℚ)) (h : allNull xs = false) :
    (colStats xs).1 = NumStat.val ((pyInt (listMax (someVals xs)) : ℤ) : ℚ) ∧
    (colStats xs).2.1 = NumStat.val (round2 (meanOf (someVals xs))) ∧
    (colStats xs).2.2.1
      = NumStat.val ((pyInt (listMin (someVals xs)) : ℤ) : ℚ) := by
  unfold colStats
  dsimp only
  have hne : ¬ (allNull xs = true) := by simp [h]
  rw [if_neg hne, if_neg hne, if_neg hne]
  exact ⟨rfl, rfl, rfl⟩

theorem round2_zero : round2 0 = 0 := by
  simp [round2]

/-- With all three analysed columns present, `analyze_draws` reaches the
statistics block and returns a report. -/
theorem analyzeDrawsCore_ok (rounds : List StatRound)
    (h1 : hasCol StatRound.drawDate rounds = true)
    (h2 : hasCol StatRound.drawSize rounds = true)
    (h3 : hasCol StatRound.drawCRS rounds = true) :
    analyzeDrawsCore rounds = .ok
      { totalDraws := rounds.length
        earliest := if (rounds.map (fun r => r.drawDate.join)).all Option.isNone
          then .na else .avail
        latest := if (rounds.map (fun r => r.drawDate.join)).all Option.isNone
          then .na else .avail
        sizeHighest := (colStats (colOf StatRound.drawSize rounds)).1
        sizeAverage := (colStats (colOf StatRound.drawSize rounds)).2.1
        sizeLowest := (colStats (colOf StatRound.drawSize rounds)).2.2.1
        sizeCV := (colStats (colOf StatRound.drawSize rounds)).2.2.2
        crsHighest := (colStats (colOf StatRound.drawCRS rounds)).1
        crsAverage := (colStats (colOf StatRound.drawCRS rounds)).2.1
        crsLowest := (colStats (colOf StatRound.drawCRS rounds)).2.2.1
        crsCV := (colStats (colOf StatRound.drawCRS rounds)).2.2.2 } := by
  unfold analyzeDrawsCore
  rw [h1, h2, h3]
  rfl

/-- C6 counterexample, falsifying the claim at both of its concrete
facets.  Empty input: `pd.DataFrame([])` has no columns at all, so the
very first column access `df['drawDate']` raises `KeyError`; the handler
at src/Draws.py:402 reports a failed analysis, and no per-field report
(in particular no "N/A" average) is produced.  Mean exactly zero: a
one-record collection with `drawSize = 0` has mean exactly zero, yet its
average is reported as the number `0.0`, not as "N/A" — so "every
affected numeric statistic" is not reported "not available" there
either; only the coefficient of variation is. -/
theorem c6_counterexample :
    (analyzeDrawsCore [] = Except.error AnalysisError.keyError ∧
      okStat (analyzeDrawsCore []) Analysis.sizeAverage = none) ∧
    (meanOf (someVals (colOf StatRound.drawSize [exStatRound2])) = 0 ∧
      okStat (analyzeDrawsCore [exStatRound2]) Analysis.sizeAverage
        = some (NumStat.val 0) ∧
      NumStat.val 0 ≠ NumStat.na) := by
  refine ⟨⟨rfl, rfl⟩, ?_, ?_, by simp⟩
  · simp [meanOf, someVals, colOf, exStatRound2]
  · rw [analyzeDrawsCore_ok [exStatRound2] (by decide) (by decide) (by decide)]
    dsimp only [okStat]
    rw [(colStats_not_null (colOf StatRound.drawSize [exStatRound2])
      (by decide)).2.1]
    have hm : meanOf (someVals (colOf StatRound.drawSize [exStatRound2]))
        = 0 := by
      simp [meanOf, someVals, colOf, exStatRound2]
    rw [hm, round2_zero]

/-- C6 amended: empty input raises a caught `KeyError` instead of an
"N/A" report (and no division error escapes).  When the analysed columns
all exist: a numeric field whose values are all null after coercion has
all four of its statistics reported "N/A"; a field with some values whose
mean is exactly zero has only its coefficient of variation reported
"N/A" (the divide-by-zero guard), while `highest`/`average`/`lowest`
stay numeric (`int(max)`, `round(mean, 2)`, `int(min)`). -/
theorem c6_stats_guards (rounds : List StatRound)
    (h1 : hasCol StatRound.drawDate rounds = true)
    (h2 : hasCol StatRound.drawSize rounds = true)
    (h3 : hasCol StatRound.drawCRS rounds = true) :
    (allNull (colOf StatRound.drawSize rounds) = true →
      okStat (analyzeDrawsCore rounds) Analysis.sizeHighest = some NumStat.na ∧
      okStat (analyzeDrawsCore rounds) Analysis.sizeAverage = some NumStat.na ∧
      okStat (analyzeDrawsCore rounds) Analysis.sizeLowest = some NumStat.na ∧
      okStat (analyzeDrawsCore rounds) Analysis.sizeCV = some CVStat.na) ∧
    (allNull (colOf StatRound.drawCRS rounds) = true →
      okStat (analyzeDrawsCore rounds) Analysis.crsHighest = some NumStat.na ∧
      okStat (analyzeDrawsCore rounds) Analysis.crsAverage = some NumStat.na ∧
      okStat (analyzeDrawsCore rounds) Analysis.crsLowest = some NumStat.na ∧
      okStat (analyzeDrawsCore rounds) Analysis.crsCV = some CVStat.na) ∧
    (allNull (colOf StatRound.drawSize rounds) = false →
      meanOf (someVals (colOf StatRound.drawSize rounds)) = 0 →
      okStat (analyzeDrawsCore rounds) Analysis.sizeHighest
        = some (NumStat.val ((pyInt (listMax
            (someVals (colOf StatRound.drawSize rounds))) : ℤ) : ℚ)) ∧
      okStat (analyzeDrawsCore rounds) Analysis.sizeAverage
        = some (NumStat.val (round2 (meanOf
            (someVals (colOf StatRound.drawSize rounds))))) ∧
      okStat (analyzeDrawsCore rounds) Analysis.sizeLowest
        = some (NumStat.val ((pyInt (listMin
            (someVals (colOf StatRound.drawSize rounds))) : ℤ) : ℚ)) ∧
      okStat (analyzeDrawsCore rounds) Analysis.sizeCV = some CVStat.na) ∧
    (allNull (colOf StatRound.drawCRS rounds) = false →
      meanOf (someVals (colOf StatRound.drawCRS rounds)) = 0 →
      okStat (analyzeDrawsCore rounds) Analysis.crsHighest
        = some (NumStat.val ((pyInt (listMax
            (someVals (colOf StatRound.drawCRS rounds))) : ℤ) : ℚ)) ∧
      okStat (analyzeDrawsCore rounds) Analysis.crsAverage
        = some (NumStat.val (round2 (meanOf
            (someVals (colOf StatRound.drawCRS rounds))))) ∧
      okStat (analyzeDrawsCore rounds) Analysis.crsLowest
        = some (NumStat.val ((pyInt (listMin
            (someVals (colOf StatRound.drawCRS rounds))) : ℤ) : ℚ)) ∧
      okStat (analyzeDrawsCore rounds) Analysis.crsCV = some CVStat.na) := by
  rw [analyzeDrawsCore_ok rounds h1 h2 h3]
  dsimp only [okStat]
  refine ⟨?_, ?_, ?_, ?_⟩
  · intro hall
    rw [colStats_all_null _ hall]
    exact ⟨rfl, rfl, rfl, rfl⟩
  · intro hall
    rw [colStats_all_null _ hall]
    exact ⟨rfl, rfl, rfl, rfl⟩
  · intro hnn hm
    obtain ⟨e1, e2, e3⟩ := colStats_not_null _ hnn
    rw [e1, e2, e3, colStats_cv_mean_zero _ hm]
    exact ⟨rfl, rfl, rfl, rfl⟩
  · intro hnn hm
    obtain ⟨e1, e2, e3⟩ := colStats_not_null _ hnn
    rw [e1, e2, e3, colStats_cv_mean_zero _ hm]
    exact ⟨rfl, rfl, rfl, rfl⟩

theorem c6_stats_guards_witness :
    (okStat (analyzeDrawsCore [exStatRound]) Analysis.sizeHighest
        = some NumStat.na ∧
      okStat (analyzeDrawsCore [exStatRound]) Analysis.sizeAverage
        = some NumStat.na ∧
      okStat (analyzeDrawsCore [exStatRound]) Analysis.sizeLowest
        = some NumStat.na ∧
      okStat (analyzeDrawsCore [exStatRound]) Analysis.sizeCV
        = some CVStat.na) ∧
    (okStat (analyzeDrawsCore [exStatRound2]) Analysis.sizeAverage
        = some (NumStat.val (round2 (meanOf
            (someVals (colOf StatRound.drawSize [exStatRound2]))))) ∧
      okStat (analyzeDrawsCore [exStatRound2]) Analysis.sizeCV
        = some CVStat.na) := by
  constructor
  · exact (c6_stats_guards [exStatRound] (by decide) (by decide)
      (by decide)).1 (by decide)
  · have h := (c6_stats_guards [exStatRound2] (by decide) (by decide)
      (by decide)).2.2.1 (by decide)
      (by simp [meanOf, someVals, colOf, exStatRound2])
    exact ⟨h.2.1, h.2.2.2⟩

/-! ### The average-hour report, for C9 -/

theorem averageHourOf_shape (counts : List Nat) (n : Nat) :
    averageHourOf counts n =
      if 0 < n ∧ weightedHourSum counts ≠ 0 then
        some (round2 ((weightedHourSum counts : ℚ) / (n : ℚ)))
      else none := by
  unfold averageHourOf
  dsimp only
  by_cases hn : 0 < n
  · rw [if_pos hn]
    dsimp only
    by_cases hw : weightedHourSum counts = 0
    · rw [hw]
      rw [if_pos (by simp), if_neg (fun hc => hc.2 rfl)]
    · have hq : ((weightedHourSum counts : ℚ) / (n : ℚ)) ≠ 0 := by
        apply div_ne_zero
        · exact_mod_cast hw
        · exact Nat.cast_ne_zero.mpr (by omega)
      rw [if_neg hq, if_pos ⟨hn, hw⟩]
  · rw [if_neg hn]
    dsimp only
    rw [if_neg (fun hc => hn hc.1)]

/-- C9 amended: `analyze_draw_times` reports the average hour — the
count-weighted mean of the hour indices, rounded to two decimals — only
when at least one record parsed AND that mean is not exactly zero; an
all-midnight-hour input parses yet is reported "not available", because
the source guards the rounding with the truthiness test `if avg_hour`,
which an average of `0.0` fails just like `None` does. -/
theorem c9_average_hour (draws : List (Option String)) :
    (analyzeDrawTimes draws).averageHour =
      if 0 < (validHours draws).length ∧
          weightedHourSum (hourCountsOf (validHours draws)) ≠ 0 then
        some (round2 ((weightedHourSum (hourCountsOf (validHours draws)) : ℚ) /
          ((validHours draws).length : ℚ)))
      else none :=
  averageHourOf_shape (hourCountsOf (validHours draws)) (validHours draws).length

/-- C9 counterexample: a record whose timestamp parses (to hour 0) for
which the average hour is nonetheless reported "not available",
contradicting "reports not available only when no record parsed". -/
theorem c9_counterexample :
    (validHours [some "March 20, 2023 00:15:00 UTC"]).length = 1 ∧
    (analyzeDrawTimes [some "March 20, 2023 00:15:00 UTC"]).averageHour
      = none := by
  refine ⟨rfl, ?_⟩
  show averageHourOf
      (hourCountsOf (validHours [some "March 20, 2023 00:15:00 UTC"]))
      (validHours [some "March 20, 2023 00:15:00 UTC"]).length = none
  rw [averageHourOf_shape, if_neg]
  intro hc
  exact hc.2 (by rfl)

/-- C10: Freshness-check asymmetry.  `check_data_freshness` reports
"update needed" exactly when the persisted count is strictly below the
upstream count; whenever the persisted count is ≥ the upstream count —
in particular on a shrunken feed — it reports no update needed, so the
`automation.py` pipeline, which runs `update_data` only under this gate,
never reaches the shrink-anomaly overwrite path. -/
theorem c10_freshness_gate (file : Option PersistedFile) (d : Fetched) :
    ((checkDataFreshness file (some d)).1 = true ↔
      existingCountOf file < d.rounds.length) ∧
    (d.rounds.length ≤ existingCountOf file →
      checkDataFreshness file (some d) =
        (false, existingCountOf file, d.rounds.length)) ∧
    (d.rounds.length < existingCountOf file →
      automationRunsUpdate file (some d) = false) := by
  refine ⟨?_, ?_, ?_⟩
  · unfold checkDataFreshness
    dsimp only
    simp only [decide_eq_true_eq]
  · intro h
    unfold checkDataFreshness
    dsimp only
    rw [decide_eq_false (by omega)]
  · intro h
    unfold automationRunsUpdate checkDataFreshness
    dsimp only
    rw [decide_eq_false (by omega)]

theorem c10_freshness_gate_witness :
    automationRunsUpdate (some ⟨[exR1, exR2], some "t0"⟩) (some ⟨[exR1]⟩)
      = false :=
  (c10_freshness_gate (some ⟨[exR1, exR2], some "t0"⟩) ⟨[exR1]⟩).2.2
    (by decide)

end EE
